import Mathlib

/-!
Shallow embedding of the enrichment pipeline in
`src/scripts/scraper/scrape_to_db.py` (the website scraper that writes
pricing, schedule and about data into the SQLite store), together with
theorems settling the specification claims about it.

Modelling conventions:
  - Python `Optional[x]` values become `Option` values; Python `float`
    price values become `Option ℚ` (the claims only inspect presence,
    truthiness and pass-through of these numbers, never rounding).
  - Python truthiness is made explicit: an `Option String` is truthy
    iff it is `some s` with `s ≠ ""`; an optional number is truthy iff
    it is `some x` with `x ≠ 0`; an optional list is truthy iff it is
    `some l` with `l ≠ []`.
  - The SQLite store is a record of lists (schools, schedule entries,
    styles, school-style links); an `UPDATE ... WHERE id = ?` becomes a
    map over the school list.
  - Network and LLM effects are oracles collected in an `Env` record:
    the control flow around them is transcribed from the source, the
    effects themselves are opaque functions.
-/

namespace Scraper

/-- Python truthiness of an optional string: `None` and `""` are falsy. -/
def optStrTruthy : Option String → Bool
  | none => false
  | some s => s ≠ ""

/-- Python truthiness of an optional number: `None` and `0` are falsy. -/
def optRatTruthy : Option ℚ → Bool
  | none => false
  | some x => x ≠ 0

/-- Python `a or b` on optional strings: the first operand when it is
truthy, otherwise the second operand unchanged. -/
def pyOr (a b : Option String) : Option String :=
  if optStrTruthy a then a else b

/-- One row of the `schools` table, restricted to the columns the
enrichment pipeline reads or writes. -/
structure School where
  id : String
  price : Option ℚ
  trial_price : Option ℚ
  single_class_price : Option ℚ
  pricing_notes : Option String
  last_price_check : Option String
  last_updated : Option String
  source : Option String
  description_raw : Option String
  phone : Option String
  email : Option String
  deriving Repr, DecidableEq

/-- The pricing extraction payload (schema `PricingData` in the source):
the dict handed to `db_update_pricing`. -/
structure PricingData where
  monthly_pass_pln : Option ℚ
  trial_price_pln : Option ℚ
  single_class_pln : Option ℚ
  pricing_notes : Option String
  deriving Repr, DecidableEq

/-- The about extraction payload (schema `AboutData` in the source):
the dict handed to `db_update_about`. A field holds the value bound to
the SQL parameter; an absent `description_raw` key is bound as `""` by
`about.get("description_raw", "")`, which we model as `some ""`. -/
structure AboutData where
  styles : List String
  description_raw : Option String
  phone : Option String
  email : Option String
  deriving Repr, DecidableEq

/-- One raw schedule-entry dict produced by extraction (schema
`ScheduleEntry` in the source), before defaults are applied on insert. -/
structure ClassDict where
  day : Option String
  time : Option String
  class_name : Option String
  instructor : Option String
  level : Option String
  deriving Repr, DecidableEq

/-- One row of the `schedule_entries` table. -/
structure ScheduleRow where
  school_id : String
  day : String
  time : String
  class_name : String
  instructor : Option String
  level : Option String
  deriving Repr, DecidableEq

/-- The relational store: `schools`, `schedule_entries`, `styles` and
the `school_styles` association, plus the autoincrement counter of the
`styles` table. -/
structure DB where
  schools : List School
  schedule_entries : List ScheduleRow
  styles : List (Nat × String)
  school_styles : List (String × Nat)
  nextStyleId : Nat
  deriving Repr, DecidableEq

/-! ## Merge layer: `db_update_pricing`, `db_update_about`,
`db_update_schedule` -/

/-- SQL condition `? != ''` under three-valued logic: a NULL parameter
makes the comparison unknown, which does not satisfy the CASE. -/
def sqlNeqEmpty : Option String → Bool
  | none => false
  | some s => s ≠ ""

/-- SQL condition `? IS NOT NULL AND ? != ''`. -/
def sqlNotNullNeqEmpty (x : Option String) : Bool :=
  x.isSome && sqlNeqEmpty x

/-- The UPDATE statement of `db_update_pricing` applied to one matched
school row (source lines 125-143): all four pricing columns are set
from the payload, both timestamps are stamped, and the source column is
upgraded from the discovery value via a CASE expression. -/
def updatePricingRow (today : String) (s : School) (p : PricingData) : School :=
  { s with
    price := p.monthly_pass_pln
    trial_price := p.trial_price_pln
    single_class_price := p.single_class_pln
    pricing_notes := p.pricing_notes
    last_price_check := some today
    last_updated := some today
    source := if s.source = some "google-places" then some "crawl4ai" else s.source }

/-- Function `db_update_pricing`: update the pricing columns of the row
whose id matches. -/
def db_update_pricing (today : String) (db : DB) (school_id : String)
    (p : PricingData) : DB :=
  { db with schools :=
      db.schools.map fun s =>
        if s.id = school_id then updatePricingRow today s p else s }

/-- The UPDATE statement of `db_update_about` applied to one matched
school row (source lines 150-169): description is written under CASE
condition `? != ''`, phone and email under `? IS NOT NULL AND ? != ''`,
otherwise the stored value is kept; `last_updated` is stamped and the
source column upgraded as in the pricing merge. -/
def updateAboutRow (today : String) (s : School) (a : AboutData) : School :=
  { s with
    description_raw :=
      if sqlNeqEmpty a.description_raw then a.description_raw else s.description_raw
    phone := if sqlNotNullNeqEmpty a.phone then a.phone else s.phone
    email := if sqlNotNullNeqEmpty a.email then a.email else s.email
    last_updated := some today
    source := if s.source = some "google-places" then some "crawl4ai" else s.source }

/-- Function `db_get_school_styles`: names of the styles linked to a
school (join of `school_styles` with `styles`). -/
def db_get_school_styles (db : DB) (school_id : String) : List String :=
  db.school_styles.filterMap (fun l =>
    if l.1 = school_id then (db.styles.find? (fun st => st.1 = l.2)).map (·.2)
    else none)

/-- Get-or-create a style row by name (source lines 179-186): SELECT by
name, INSERT when absent, then re-SELECT the generated id. -/
def getOrCreateStyle (db : DB) (name : String) : DB × Nat :=
  match db.styles.find? (fun st => st.2 = name) with
  | some st => (db, st.1)
  | none =>
      let id := db.nextStyleId
      ({ db with styles := db.styles ++ [(id, name)], nextStyleId := id + 1 }, id)

/-- INSERT OR IGNORE into `school_styles` (source lines 188-191). -/
def linkStyle (db : DB) (school_id : String) (style_id : Nat) : DB :=
  if (school_id, style_id) ∈ db.school_styles then db
  else { db with school_styles := db.school_styles ++ [(school_id, style_id)] }

/-- Style loop body of `db_update_about` (source lines 175-191): skip
names already linked (against the set captured before the loop), else
get-or-create the style and link it. -/
def addStyle (existing : List String) (school_id : String) (db : DB)
    (name : String) : DB :=
  if name ∈ existing then db
  else
    let r := getOrCreateStyle db name
    linkStyle r.1 school_id r.2

/-- Function `db_update_about`: field update of the matched row, then
the additive, idempotent style merge (skipped when the style list is
empty, matching `if styles:`). -/
def db_update_about (today : String) (db : DB) (school_id : String)
    (a : AboutData) : DB :=
  let db1 : DB :=
    { db with schools :=
        db.schools.map fun s =>
          if s.id = school_id then updateAboutRow today s a else s }
  if a.styles = [] then db1
  else
    let existing := db_get_school_styles db1 school_id
    a.styles.foldl (addStyle existing school_id) db1

/-- Row built by the INSERT of `db_update_schedule` (source lines
206-216): missing day, time and class name default to `""`. -/
def classToRow (school_id : String) (c : ClassDict) : ScheduleRow :=
  ⟨school_id, c.day.getD "", c.time.getD "", c.class_name.getD "",
    c.instructor, c.level⟩

/-- Function `db_update_schedule` (source lines 196-218): early return
on an empty list (`if not classes: return`), otherwise DELETE every
entry of the school and INSERT the new entries. -/
def db_update_schedule (db : DB) (school_id : String)
    (classes : List ClassDict) : DB :=
  if classes = [] then db
  else
    let cleared := db.schedule_entries.filter (fun e => ¬ e.school_id = school_id)
    { db with schedule_entries :=
        cleared ++ classes.map (classToRow school_id) }

/-! ## Planner decisions inside `scrape_school` (source lines 567-572) -/

/-- The seed record for one school, as read from `seeds.yaml` or rebuilt
from the database row in `main`. -/
structure Seed where
  id : String
  website : Option String
  pricing_url : Option String
  schedule_url : Option String
  deriving Repr, DecidableEq

/-- Decision `needs_pricing = force or (db_school and
db_school.get("last_price_check") is None)`. -/
def needs_pricing (force : Bool) (db_school : Option School) : Bool :=
  force || (match db_school with
    | none => false
    | some s => s.last_price_check = none)

/-- Value `has_schedule = conn and _has_schedule_in_db(conn, school_id)
if conn else False`; the entry count being positive is passed in as
`dbHasSchedule`. -/
def has_schedule_flag (connPresent dbHasSchedule : Bool) : Bool :=
  if connPresent then connPresent && dbHasSchedule else false

/-- Decision `needs_schedule = not prices_only and (force or not
has_schedule)`. -/
def needs_schedule (prices_only force has_schedule : Bool) : Bool :=
  !prices_only && (force || !has_schedule)

/-- Truthiness of `not db_school.get("description_raw") or
db_school.get("description_raw") == ""`. -/
def descMissing (d : Option String) : Bool :=
  !optStrTruthy d || d = some ""

/-- Decision `needs_about = not prices_only and (force or (db_school and
(not db_school.get("description_raw") or ... == "")))`. -/
def needs_about (prices_only force : Bool) (db_school : Option School) : Bool :=
  !prices_only && (force || (match db_school with
    | none => false
    | some s => descMissing s.description_raw))

/-! ## Saving results: `_save_school_updates` (source lines 662-687) -/

/-- The three merge categories. -/
inductive Cat where
  | pricing
  | schedule
  | about
  deriving Repr, DecidableEq

/-- The updates dict returned by `scrape_school` for one school. -/
structure Updates where
  id : String
  pricing : Option PricingData
  schedule : Option (List ClassDict)
  about : Option AboutData
  deriving Repr, DecidableEq

/-- Python truthiness of `updates.get("schedule")`: absent or an empty
list is falsy. -/
def schedTruthy : Option (List ClassDict) → Bool
  | none => false
  | some l => l ≠ []

/-- Outcome of `_save_school_updates`: the store afterwards, the
returned `saved` flag, and which category merges were actually called
(including a call that raised). -/
structure SaveResult where
  db : DB
  saved : Bool
  attemptedPricing : Bool
  attemptedSchedule : Bool
  attemptedAbout : Bool
  deriving Repr, DecidableEq

/-- About stage of the save (source lines 679-682), reached with the
store, the `saved` flag and the attempted flags accumulated so far. -/
def saveStageAbout (faults : Cat → Bool) (today : String) (u : Updates)
    (db : DB) (saved aP aS : Bool) : SaveResult :=
  match u.about with
  | none => ⟨db, saved, aP, aS, false⟩
  | some a =>
      if faults .about then ⟨db, saved, aP, aS, true⟩
      else ⟨db_update_about today db u.id a, true, aP, aS, true⟩

/-- Schedule stage of the save (source lines 673-677). -/
def saveStageSchedule (faults : Cat → Bool) (today : String) (u : Updates)
    (db : DB) (saved aP : Bool) : SaveResult :=
  if schedTruthy u.schedule then
    if faults .schedule then ⟨db, saved, aP, true, false⟩
    else saveStageAbout faults today u
      (db_update_schedule db u.id (u.schedule.getD [])) true aP true
  else saveStageAbout faults today u db saved aP false

/-- Function `_save_school_updates`: the three category merges run in
order pricing, schedule, about inside a single `try` block; `saved` is
set after each successful merge; any raised persistence error is caught
after the block, so a fault in one merge skips the remaining merges but
keeps the `saved` value and store state accumulated so far. A possible
persistence error in a category is injected through the `faults`
oracle, modelling the exception as raised before that category writes. -/
def save_school_updates (faults : Cat → Bool) (today : String) (u : Updates)
    (db : DB) : SaveResult :=
  if u.pricing.isSome then
    if faults .pricing then ⟨db, false, true, false, false⟩
    else saveStageSchedule faults today u
      (db_update_pricing today db u.id (u.pricing.getD ⟨none, none, none, none⟩))
      true true
  else saveStageSchedule faults today u db false false

/-! ## Text extraction with retries: `extract_with_llm` (source lines
445-512) -/

/-- Outcome of one attempt of the try body in `extract_with_llm`:
either the call returned text that parsed and unwrapped to a payload,
or it returned empty text, or `json.loads` raised, or the client call
raised some other exception. -/
inductive LLMOutcome (α : Type) where
  | ok (data : α)
  | empty
  | parseError
  | apiError
  deriving Repr, DecidableEq

/-- Whether an attempt outcome falls through to the retry logic: only
the two exception outcomes do (an empty response returns immediately). -/
def retryable : LLMOutcome α → Bool
  | .parseError => true
  | .apiError => true
  | _ => false

/-- Observable behaviour of one `extract_with_llm` call: the returned
value, how many attempts ran, and the backoff delays slept in order. -/
structure LLMRun (α : Type) where
  result : Option α
  attempts : Nat
  sleeps : List Nat
  deriving Repr, DecidableEq

/-- The `for attempt in range(max_retries + 1)` loop of
`extract_with_llm`, with the outcome of each attempt supplied by an
oracle indexed by attempt number; `fuel` is the number of iterations
left. A successful parse returns the payload; empty text returns
`None` at once; an exception sleeps `2 ** attempt` and retries while
`attempt < max_retries`, and after the last attempt the loop falls
through and returns `None`. -/
def extractLoop (oracle : Nat → LLMOutcome α) : Nat → Nat → LLMRun α
  | _, 0 => ⟨none, 0, []⟩
  | attempt, remaining + 1 =>
      match oracle attempt with
      | .ok d => ⟨some d, 1, []⟩
      | .empty => ⟨none, 1, []⟩
      | .parseError =>
          if remaining = 0 then ⟨none, 1, []⟩
          else
            let rest := extractLoop oracle (attempt + 1) remaining
            ⟨rest.result, rest.attempts + 1, 2 ^ attempt :: rest.sleeps⟩
      | .apiError =>
          if remaining = 0 then ⟨none, 1, []⟩
          else
            let rest := extractLoop oracle (attempt + 1) remaining
            ⟨rest.result, rest.attempts + 1, 2 ^ attempt :: rest.sleeps⟩

/-- Constant `max_retries = 2` of `extract_with_llm`. -/
def max_retries : Nat := 2

/-- Function `extract_with_llm`: return `None` without any attempt when
the markdown is falsy or shorter than 50 characters after stripping,
otherwise run the retry loop over `max_retries + 1` attempts. -/
def extract_with_llm (oracle : Nat → LLMOutcome α)
    (markdown : Option String) : LLMRun α :=
  match markdown with
  | none => ⟨none, 0, []⟩
  | some m =>
      if m = "" then ⟨none, 0, []⟩
      else if m.trim.length < 50 then ⟨none, 0, []⟩
      else extractLoop oracle 0 (max_retries + 1)

/-! ## Candidate pricing images: `extract_image_urls` (source lines
344-373) -/

/-- Split a character list at the first occurrence of a pattern,
returning the parts before and after it. -/
def splitOnSubstr (pat : List Char) : List Char → Option (List Char × List Char)
  | [] => if pat = [] then some ([], []) else none
  | c :: rest =>
      if pat.isPrefixOf (c :: rest) then some ([], (c :: rest).drop pat.length)
      else
        match splitOnSubstr pat rest with
        | some pr => some (c :: pr.1, pr.2)
        | none => none

/-- Split a URL at the first `://`: scheme and remainder, or `none`
when the URL has no scheme. -/
def urlParts (u : String) : Option (String × String) :=
  match splitOnSubstr "://".data u.data with
  | some pr => some (String.mk pr.1, String.mk pr.2)
  | none => none

/-- Path component of an absolute URL: everything from the first slash
after the host; the whole string when there is no scheme. -/
def urlPath (u : String) : String :=
  match splitOnSubstr "://".data u.data with
  | some pr => String.mk (pr.2.dropWhile (fun c => c ≠ '/'))
  | none => u

/-- Prefix of a path up to and including its last slash. -/
def dirPrefix (path : List Char) : List Char :=
  (path.reverse.dropWhile (fun c => c ≠ '/')).reverse

/-- Modelled from the Python standard library: `urllib.parse.urljoin`
restricted to the reference shapes arising here. An empty reference
yields the base; a reference with a scheme passes through; a
scheme-relative (`//...`) or root-relative (`/...`) reference resolves
against the base origin; any other reference resolves against the base
directory. Dot segments, queries and fragments are out of scope. -/
def urljoin (base rel : String) : String :=
  if rel = "" then base
  else if (splitOnSubstr "://".data rel.data).isSome then rel
  else
    match splitOnSubstr "://".data base.data with
    | none => rel
    | some pr =>
        let scheme := String.mk pr.1
        let host := String.mk (pr.2.takeWhile (fun c => c ≠ '/'))
        let path := pr.2.dropWhile (fun c => c ≠ '/')
        if "//".data.isPrefixOf rel.data then scheme ++ ":" ++ rel
        else if "/".data.isPrefixOf rel.data then scheme ++ "://" ++ host ++ rel
        else
          let dir := String.mk (dirPrefix path)
          scheme ++ "://" ++ host ++ (if dir = "" then "/" else dir) ++ rel

/-- The keyword alternatives of the pricing-image regex
`cennik|price|pricing|menu-zabieg|oferta|karnety|tariff`. -/
def pricing_keywords : List String :=
  ["cennik", "price", "pricing", "menu-zabieg", "oferta", "karnety", "tariff"]

/-- Whether `pat` occurs as a contiguous run inside the second list. -/
def infixOfChars (pat : List Char) : List Char → Bool
  | [] => decide (pat = [])
  | c :: rest => pat.isPrefixOf (c :: rest) || infixOfChars pat rest

/-- Case-insensitive search of the keyword regex over a whole URL
string (`pricing_keywords.search(u)` in the source). -/
def containsKeyword (u : String) : Bool :=
  pricing_keywords.any fun k => infixOfChars k.data (u.data.map Char.toLower)

/-- The resolve-and-deduplicate loop of `extract_image_urls` (source
lines 359-365): resolve each collected reference against the page URL
and keep the first occurrence of every absolute URL, in order. -/
def resolveDedup (page_url : String) (seen : List String) :
    List String → List String
  | [] => []
  | u :: rest =>
      let full := urljoin page_url u
      if full ∈ seen then resolveDedup page_url seen rest
      else full :: resolveDedup page_url (full :: seen) rest

/-- Function `extract_image_urls`, with the two regex scans over the
raw HTML supplied as inputs: `imgSrcs` lists the `<img src=...>`
matches in page order, `bgUrls` the `background-image: url(...)`
matches in page order (the source appends all of the first scan, then
all of the second). The collected references are resolved and
deduplicated, filtered to those whose URL matches the pricing keyword
regex, and capped at 3. -/
def extract_image_urls (imgSrcs bgUrls : List String)
    (page_url : String) : List String :=
  let urls := imgSrcs ++ bgUrls
  let resolved := resolveDedup page_url [] urls
  let prioritized := resolved.filter containsKeyword
  prioritized.take 3

/-! ## The pricing cascade inside `scrape_school` (source lines
575-619) -/

/-- Effect oracles for one scrape run: HTTP fetch results, markdown
conversion, text extraction against the pricing schema, the two regex
scans of a page, and per-image vision extraction (download, vision
call, parse and unwrap folded into one outcome). -/
structure Env where
  fetch : String → Option String
  h2t : String → String
  extract_pricing : String → Option PricingData
  collect_img : String → List String
  collect_bg : String → List String
  vision_extract : String → Option PricingData

/-- Constant `MAX_MD_CHARS = 48000`. -/
def MAX_MD_CHARS : Nat := 48000

/-- Function `fetch_html` (source lines 318-332): `None` for a falsy
URL, otherwise the fetch oracle (which already accounts for HTTP and
transport failures). -/
def fetch_html (env : Env) (url : Option String) : Option String :=
  match url with
  | none => none
  | some u => if u = "" then none else env.fetch u

/-- Markdown conversion with the length cap applied. -/
def toMarkdown (env : Env) (html : String) : String :=
  (env.h2t html).take MAX_MD_CHARS

/-- Function `fetch_markdown` (source lines 335-341): fetch, bail out
on a falsy body, convert and truncate. -/
def fetch_markdown (env : Env) (url : Option String) : Option String :=
  match fetch_html env url with
  | none => none
  | some h => if h = "" then none else some (toMarkdown env h)

/-- The pattern `extract_with_llm(md, PricingData, ...) if md else
None` used at each text tier. -/
def runTextPricing (env : Env) (md : Option String) : Option PricingData :=
  match md with
  | none => none
  | some m => if m = "" then none else env.extract_pricing m

/-- The gate `pricing.get("monthly_pass_pln") or
pricing.get("single_class_pln") or pricing.get("trial_price_pln")`:
Python truthiness, so a field holding 0 counts as not found. -/
def hasPricesData (p : PricingData) : Bool :=
  optRatTruthy p.monthly_pass_pln || optRatTruthy p.single_class_pln
    || optRatTruthy p.trial_price_pln

/-- The gate `pricing and (...)` over an optional payload. -/
def hasPricesOpt : Option PricingData → Bool
  | none => false
  | some p => hasPricesData p

/-- Function `extract_pricing_from_images` (source lines 376-442): try
each candidate image in order; any download, type, vision or parse
failure is an oracle `none` and moves on; a parsed payload is returned
only when the price gate holds, otherwise the loop continues; `None`
after the last candidate. The page URL parameter of the source is used
only for logging and is omitted. -/
def extract_pricing_from_images (env : Env) :
    List String → Option PricingData
  | [] => none
  | u :: rest =>
      match env.vision_extract u with
      | some d =>
          if hasPricesData d then some d
          else extract_pricing_from_images env rest
      | none => extract_pricing_from_images env rest

/-- Value `pricing_url = seed.get("pricing_url") or
seed.get("website")` (source line 576). -/
def pricingPageUrl (seed : Seed) : Option String :=
  pyOr seed.pricing_url seed.website

/-- Value `html = fetch_html(pricing_url)` (source line 579). -/
def pricingHtml (env : Env) (seed : Seed) : Option String :=
  fetch_html env (pricingPageUrl seed)

/-- Value `md = _h2t.handle(html)[:MAX_MD_CHARS] if html else None`
(source line 580). -/
def pricingMd (env : Env) (seed : Seed) : Option String :=
  match pricingHtml env seed with
  | none => none
  | some h => if h = "" then none else some (toMarkdown env h)

/-- Tier 1 of the pricing cascade: text extraction from the pricing
page (source line 581). -/
def pricingTier1 (env : Env) (seed : Seed) : Option PricingData :=
  runTextPricing env (pricingMd env seed)

/-- The candidate images computed in the vision fallback (source line
591). -/
def pricingImgUrls (env : Env) (seed : Seed) : List String :=
  match pricingHtml env seed with
  | none => []
  | some h =>
      extract_image_urls (env.collect_img h) (env.collect_bg h)
        ((pricingPageUrl seed).getD "")

/-- Whether the vision fallback tier is entered (source line 590):
tier 1 found no prices and the raw page body is truthy. -/
def visionTierRan (env : Env) (seed : Seed) : Bool :=
  !hasPricesOpt (pricingTier1 env seed) && optStrTruthy (pricingHtml env seed)

/-- The pricing payload after the vision fallback (source lines
584-596): when tier 1 found prices or the page body is falsy the tier
is skipped; otherwise a vision payload replaces the tier 1 payload
only when the vision loop returned one. -/
def pricingAfterVision (env : Env) (seed : Seed) : Option PricingData :=
  let pricing := pricingTier1 env seed
  if hasPricesOpt pricing then pricing
  else
    match pricingHtml env seed with
    | none => pricing
    | some h =>
        if h = "" then pricing
        else
          let img_urls := pricingImgUrls env seed
          if img_urls = [] then pricing
          else
            match extract_pricing_from_images env img_urls with
            | some v => some v
            | none => pricing

/-- Whether the homepage fallback tier is entered (source line 604):
still no prices after the vision tier, and both the pricing URL hint
and the website are truthy. The source performs no comparison between
the two URLs. -/
def homepageFallbackRan (env : Env) (seed : Seed) : Bool :=
  !hasPricesOpt (pricingAfterVision env seed)
    && optStrTruthy seed.pricing_url && optStrTruthy seed.website

/-- The pricing payload after the homepage fallback (source lines
603-609): fetch the website root as markdown, extract, and replace the
payload only when the new one passes the price gate. -/
def pricingAfterHomepage (env : Env) (seed : Seed) : Option PricingData :=
  let pricing := pricingAfterVision env seed
  if homepageFallbackRan env seed then
    let md := fetch_markdown env seed.website
    match runTextPricing env md with
    | some h => if hasPricesData h then some h else pricing
    | none => pricing
  else pricing

/-- The attempted-nothing-found marker assigned when the cascade ends
with `pricing is None` (source lines 612-618). -/
def nothingFoundMarker : PricingData :=
  ⟨none, none, none, some "Nie udało się pobrać informacji o cenach."⟩

/-- The pricing payload stored into `updates["pricing"]` (source line
619): the cascade result, or the marker when every tier produced no
payload at all. -/
def scrapePricingResult (env : Env) (seed : Seed) : PricingData :=
  match pricingAfterHomepage env seed with
  | none => nothingFoundMarker
  | some p => p

/-! ## Concrete data for witnesses and counterexamples -/

/-- A school row with a populated description and phone, used to
evaluate the merge theorems on concrete data. -/
def schoolX : School :=
  ⟨"joga-x", some 120, none, some 40, none, none, none,
    some "google-places", some "Opis X", some "500100200", none⟩

/-- An about payload with an empty description, absent phone and a
populated email. -/
def aboutEmptyDesc : AboutData :=
  ⟨[], some "", none, some "kontakt@joga-x.pl"⟩

/-- A school row whose description is empty and whose pricing was never
checked. -/
def schoolBlank : School :=
  ⟨"joga-y", none, none, none, none, none, none, some "google-places",
    none, none, none⟩

/-- One stored schedule entry for the school `joga-x`. -/
def rowX : ScheduleRow := ⟨"joga-x", "Poniedziałek", "18:00-19:30", "Hatha", none, none⟩

/-- A store holding exactly one schedule entry, for `joga-x`. -/
def dbOneEntry : DB := ⟨[schoolX], [rowX], [], [], 1⟩

/-- A raw schedule-entry dict as produced by extraction. -/
def classA : ClassDict := ⟨some "Wtorek", some "09:00-10:30", some "Vinyasa", none, none⟩

/-- An updates dict carrying payloads for all three categories. -/
def updAll : Updates :=
  ⟨"joga-x", some ⟨none, none, none, some "cennik niedostępny"⟩,
    some [classA], some ⟨["Hatha"], some "opis szkoły", none, none⟩⟩

/-- A fault oracle raising a persistence error in the pricing merge
only. -/
def faultPricingOnly : Cat → Bool := fun c => c = Cat.pricing

/-- An attempt oracle in which every attempt raises a parse error. -/
def oracleErr : Nat → LLMOutcome Nat := fun _ => LLMOutcome.parseError

/-- A markdown page long enough to pass the minimum-length check. -/
def mdLong : String :=
  "Cennik zajec jogi: karnet open 150 zl miesiecznie, wejscie jednorazowe 40 zl."

/-- An environment whose fetches succeed but whose extraction oracles
never find anything. -/
def envAllNone : Env :=
  ⟨fun _ => some "strona bez cen, tylko zdjecia sali do jogi", fun h => h,
    fun _ => none, fun _ => [], fun _ => [], fun _ => none⟩

/-- A seed with distinct pricing and website URLs. -/
def seedX : Seed :=
  ⟨"joga-x", some "http://joga-x.pl/", some "http://joga-x.pl/cennik/", none⟩

/-- A seed whose pricing URL hint equals its website. -/
def seedSame : Seed :=
  ⟨"joga-y", some "http://joga-y.pl/", some "http://joga-y.pl/", none⟩

/-- A payload whose only populated field is a free trial price of 0. -/
def pZero : PricingData := ⟨none, some 0, none, none⟩

/-- An environment whose vision oracle always returns the zero-only
payload. -/
def envVisionZero : Env :=
  ⟨fun _ => some "strona", fun h => h, fun _ => none, fun _ => [],
    fun _ => [], fun _ => some pZero⟩

/-- A page with ten collected image references, two of which carry a
pricing keyword. -/
def imgs10 : List String :=
  ["sala.jpg", "logo.png", "zajecia.gif", "cennik-2025.jpg", "hero.jpg",
    "mapa.jpg", "ikona.svg", "nauczyciel.jpg", "karnety/lista.png",
    "stopka.jpg"]

/-! ## Theorems about the merge layer -/

/-- C5: the pricing merge unconditionally overwrites all four pricing
fields with the payload values (nulls included, no back-fill), stamps
both `last_price_check` and `last_updated` to the run date, and
rewrites the source field to `crawl4ai` exactly when it currently
equals `google-places`, leaving any other source value unchanged. -/
theorem pricing_merge_overwrites_all_fields (today : String) (s : School)
    (p : PricingData) :
    (updatePricingRow today s p).price = p.monthly_pass_pln ∧
    (updatePricingRow today s p).trial_price = p.trial_price_pln ∧
    (updatePricingRow today s p).single_class_price = p.single_class_pln ∧
    (updatePricingRow today s p).pricing_notes = p.pricing_notes ∧
    (updatePricingRow today s p).last_price_check = some today ∧
    (updatePricingRow today s p).last_updated = some today ∧
    (updatePricingRow today s p).source
      = (if s.source = some "google-places" then some "crawl4ai" else s.source) :=
  ⟨rfl, rfl, rfl, rfl, rfl, rfl, rfl⟩

/-- C6: the about merge writes description, phone and email only when
the new value is non-null and not the empty string, and preserves the
stored value otherwise; in particular an about payload with an empty
description leaves a populated stored description unchanged. -/
theorem about_merge_preserves_populated_fields (today : String) (s : School)
    (a : AboutData) :
    (∀ t, a.description_raw = some t → t ≠ "" →
      (updateAboutRow today s a).description_raw = some t) ∧
    (a.description_raw = none ∨ a.description_raw = some "" →
      (updateAboutRow today s a).description_raw = s.description_raw) ∧
    (∀ t, a.phone = some t → t ≠ "" →
      (updateAboutRow today s a).phone = some t) ∧
    (a.phone = none ∨ a.phone = some "" →
      (updateAboutRow today s a).phone = s.phone) ∧
    (∀ t, a.email = some t → t ≠ "" →
      (updateAboutRow today s a).email = some t) ∧
    (a.email = none ∨ a.email = some "" →
      (updateAboutRow today s a).email = s.email) := by
  refine ⟨?_, ?_, ?_, ?_, ?_, ?_⟩
  · intro t ht hne
    simp [updateAboutRow, sqlNeqEmpty, ht, hne]
  · rintro (h | h) <;> simp [updateAboutRow, sqlNeqEmpty, h]
  · intro t ht hne
    simp [updateAboutRow, sqlNotNullNeqEmpty, sqlNeqEmpty, ht, hne]
  · rintro (h | h) <;>
      simp [updateAboutRow, sqlNotNullNeqEmpty, sqlNeqEmpty, h]
  · intro t ht hne
    simp [updateAboutRow, sqlNotNullNeqEmpty, sqlNeqEmpty, ht, hne]
  · rintro (h | h) <;>
      simp [updateAboutRow, sqlNotNullNeqEmpty, sqlNeqEmpty, h]

/-- Witness for C6: on concrete data, the empty new description leaves
the stored description `Opis X` in place, the absent phone is kept, and
the non-empty email is written. -/
theorem about_merge_preserves_populated_fields_holds :
    (updateAboutRow "2026-10-12" schoolX aboutEmptyDesc).description_raw
        = some "Opis X" ∧
    (updateAboutRow "2026-10-12" schoolX aboutEmptyDesc).phone
        = some "500100200" ∧
    (updateAboutRow "2026-10-12" schoolX aboutEmptyDesc).email
        = some "kontakt@joga-x.pl" := by
  have h := about_merge_preserves_populated_fields "2026-10-12" schoolX aboutEmptyDesc
  exact ⟨(h.2.1 (Or.inr rfl)).trans rfl,
    (h.2.2.2.1 (Or.inl rfl)).trans rfl,
    h.2.2.2.2.1 "kontakt@joga-x.pl" rfl (by decide)⟩

/-! ## Theorems about the planner decisions -/

/-- C2 counterexample: with force set and prices-only set, the code
decides that neither schedule nor about is needed (the prices-only flag
is checked first), refuting the claim that force alone suffices. -/
theorem force_with_prices_only_skips_schedule_and_about :
    needs_schedule true true false = false ∧
    needs_about true true (some schoolBlank) = false := by decide

/-- C2 amended: schedule is needed exactly when the batch is not
pricing-only and (force is set or the school has no schedule entries);
about is needed exactly when the batch is not pricing-only and (force
is set or the stored raw description is missing or empty); so with
force and prices-only both set, neither schedule nor about is scraped. -/
theorem planner_schedule_about_decisions (prices_only force has_schedule : Bool)
    (db_school : Option School) :
    (needs_schedule prices_only force has_schedule = true ↔
      prices_only = false ∧ (force = true ∨ has_schedule = false)) ∧
    (needs_about prices_only force db_school = true ↔
      prices_only = false ∧ (force = true ∨
        ∃ s, db_school = some s ∧ descMissing s.description_raw = true)) := by
  constructor
  · cases prices_only <;> cases force <;> cases has_schedule <;>
      simp [needs_schedule]
  · cases db_school <;> cases prices_only <;> cases force <;>
      simp [needs_about]

/-! ## Theorems about the schedule merge -/

/-- C3 counterexample: applying the schedule merge with the empty list
to a school holding one entry leaves the store unchanged (the function
returns before deleting), so the prior entry survives although the
claim requires the stored set to equal the new, empty list. -/
theorem schedule_merge_empty_list_keeps_old_entries :
    db_update_schedule dbOneEntry "joga-x" [] = dbOneEntry ∧
    (dbOneEntry.schedule_entries.filter
        (fun e => e.school_id = "joga-x")).length = 1 := by
  constructor
  · rfl
  · rfl

/-- C3 amended: for every nonempty new entry list the schedule merge
deletes the whole prior entry set of the school and inserts exactly the
new entries (entries of other schools are untouched); for the empty
list the merge is a no-op and the prior entries survive. -/
theorem schedule_merge_replaces_for_nonempty (db : DB) (sid : String)
    (classes : List ClassDict) :
    (classes = [] → db_update_schedule db sid classes = db) ∧
    (classes ≠ [] →
      (db_update_schedule db sid classes).schedule_entries.filter
          (fun e => e.school_id = sid)
        = classes.map (classToRow sid) ∧
      (db_update_schedule db sid classes).schedule_entries.filter
          (fun e => ¬ e.school_id = sid)
        = db.schedule_entries.filter (fun e => ¬ e.school_id = sid)) := by
  constructor
  · intro h
    simp [db_update_schedule, h]
  · intro h
    unfold db_update_schedule
    rw [if_neg h]
    refine ⟨?_, ?_⟩
    · simp only [List.filter_append, List.filter_filter]
      rw [List.filter_eq_nil_iff.mpr, List.nil_append]
      · rw [List.filter_map]
        have hc : (fun e => decide (ScheduleRow.school_id e = sid)) ∘ classToRow sid
            = fun _ => true := by
          funext c
          simp [classToRow]
        rw [hc, List.filter_true]
      · intro e he
        simp
    · simp only [List.filter_append, List.filter_filter]
      rw [List.filter_map]
      have h1 : (fun e => decide (¬ ScheduleRow.school_id e = sid)) ∘ classToRow sid
          = fun _ => false := by
        funext c
        simp [classToRow]
      rw [h1, List.filter_false, List.map_nil, List.append_nil]
      simp [Bool.and_self]

/-- Witness for C3 amended: on the concrete one-entry store, the empty
list is a no-op and a one-entry list fully replaces the prior entry. -/
theorem schedule_merge_replaces_for_nonempty_holds :
    db_update_schedule dbOneEntry "joga-x" [] = dbOneEntry ∧
    (db_update_schedule dbOneEntry "joga-x" [classA]).schedule_entries.filter
        (fun e => e.school_id = "joga-x")
      = [classToRow "joga-x" classA] := by
  refine ⟨(schedule_merge_replaces_for_nonempty dbOneEntry "joga-x" []).1 rfl, ?_⟩
  have h :=
    ((schedule_merge_replaces_for_nonempty dbOneEntry "joga-x" [classA]).2
      (by decide)).1
  simpa using h

/-! ## Theorems about saving results -/

/-- C1 counterexample: with payloads present for all three categories,
a persistence error while saving pricing prevents the schedule and
about merges from being attempted (all three saves share one try
block), and the function reports nothing saved. -/
theorem pricing_fault_blocks_schedule_and_about :
    updAll.pricing.isSome = true ∧
    schedTruthy updAll.schedule = true ∧
    updAll.about.isSome = true ∧
    (save_school_updates faultPricingOnly "2026-10-12" updAll dbOneEntry).attemptedSchedule
      = false ∧
    (save_school_updates faultPricingOnly "2026-10-12" updAll dbOneEntry).attemptedAbout
      = false ∧
    (save_school_updates faultPricingOnly "2026-10-12" updAll dbOneEntry).saved
      = false := by
  refine ⟨rfl, by decide, rfl, rfl, rfl, rfl⟩

/-- C1 amended: the three merges run in order pricing, schedule, about
inside a single error handler, so each merge is attempted exactly when
its payload is present and no earlier attempted merge raised a
persistence error; in particular, absent faults in earlier merges all
three are attempted independently. -/
theorem merges_sequential_under_faults (faults : Cat → Bool) (today : String)
    (u : Updates) (db : DB) :
    (save_school_updates faults today u db).attemptedPricing = u.pricing.isSome ∧
    (save_school_updates faults today u db).attemptedSchedule
      = (schedTruthy u.schedule && (!u.pricing.isSome || !faults Cat.pricing)) ∧
    (save_school_updates faults today u db).attemptedAbout
      = (u.about.isSome && (!u.pricing.isSome || !faults Cat.pricing)
          && (!schedTruthy u.schedule || !faults Cat.schedule)) := by
  rcases u with ⟨id, up, us, ua⟩
  cases up <;> cases ua <;>
    cases hfp : faults Cat.pricing <;> cases hfs : faults Cat.schedule <;>
    cases hfa : faults Cat.about <;>
    by_cases hs : schedTruthy us = true <;>
    simp_all [save_school_updates, saveStageSchedule, saveStageAbout]

/-! ## Theorems about the text-extraction retry policy -/

/-- Unfolding lemma: zero fuel ends the loop with no attempt. -/
theorem extractLoop_zero_fuel (oracle : Nat → LLMOutcome α) (a : Nat) :
    extractLoop oracle a 0 = ⟨none, 0, []⟩ := rfl

/-- Unfolding lemma: a successful attempt returns its payload at once. -/
theorem extractLoop_ok (oracle : Nat → LLMOutcome α) (a f : Nat) (d : α)
    (hh : oracle a = LLMOutcome.ok d) :
    extractLoop oracle a (f + 1) = ⟨some d, 1, []⟩ := by
  simp [extractLoop, hh]

/-- Unfolding lemma: an empty response returns `none` at once. -/
theorem extractLoop_empty (oracle : Nat → LLMOutcome α) (a f : Nat)
    (hh : oracle a = LLMOutcome.empty) :
    extractLoop oracle a (f + 1) = ⟨none, 1, []⟩ := by
  simp [extractLoop, hh]

/-- Unfolding lemma: an error on the last allowed attempt returns
`none` without sleeping. -/
theorem extractLoop_err_last (oracle : Nat → LLMOutcome α) (a : Nat)
    (hh : retryable (oracle a) = true) :
    extractLoop oracle a 1 = ⟨none, 1, []⟩ := by
  cases ho : oracle a with
  | ok d => rw [ho] at hh; simp [retryable] at hh
  | empty => rw [ho] at hh; simp [retryable] at hh
  | parseError => simp [extractLoop, ho]
  | apiError => simp [extractLoop, ho]

/-- Unfolding lemma: an error with attempts left sleeps `2 ^ a` and
recurses on the next attempt. -/
theorem extractLoop_err_retry (oracle : Nat → LLMOutcome α) (a r : Nat)
    (hh : retryable (oracle a) = true) :
    extractLoop oracle a (r + 1 + 1)
      = ⟨(extractLoop oracle (a + 1) (r + 1)).result,
         (extractLoop oracle (a + 1) (r + 1)).attempts + 1,
         2 ^ a :: (extractLoop oracle (a + 1) (r + 1)).sleeps⟩ := by
  cases ho : oracle a with
  | ok d => rw [ho] at hh; simp [retryable] at hh
  | empty => rw [ho] at hh; simp [retryable] at hh
  | parseError => simp [extractLoop, ho]
  | apiError => simp [extractLoop, ho]

/-- Attempt counts of the retry loop never exceed the fuel. -/
theorem extractLoop_attempts_le (oracle : Nat → LLMOutcome α) :
    ∀ (fuel attempt : Nat), (extractLoop oracle attempt fuel).attempts ≤ fuel := by
  intro fuel
  induction fuel with
  | zero => intro a; simp [extractLoop_zero_fuel]
  | succ f ih =>
      intro a
      cases hh : oracle a with
      | ok d => rw [extractLoop_ok oracle a f d hh]; simp
      | empty => rw [extractLoop_empty oracle a f hh]; simp
      | parseError =>
          have hr : retryable (oracle a) = true := by rw [hh]; rfl
          cases f with
          | zero => rw [extractLoop_err_last oracle a hr]
          | succ r =>
              rw [extractLoop_err_retry oracle a r hr]
              have h2 := ih (a + 1)
              show (extractLoop oracle (a + 1) (r + 1)).attempts + 1 ≤ r + 1 + 1
              omega
      | apiError =>
          have hr : retryable (oracle a) = true := by rw [hh]; rfl
          cases f with
          | zero => rw [extractLoop_err_last oracle a hr]
          | succ r =>
              rw [extractLoop_err_retry oracle a r hr]
              have h2 := ih (a + 1)
              show (extractLoop oracle (a + 1) (r + 1)).attempts + 1 ≤ r + 1 + 1
              omega

/-- With positive fuel the loop performs at least one attempt. -/
theorem extractLoop_attempts_pos (oracle : Nat → LLMOutcome α) :
    ∀ (fuel attempt : Nat), fuel ≠ 0 →
      1 ≤ (extractLoop oracle attempt fuel).attempts := by
  intro fuel
  cases fuel with
  | zero => intro a h; exact absurd rfl h
  | succ f =>
      intro a _
      cases hh : oracle a with
      | ok d => rw [extractLoop_ok oracle a f d hh]
      | empty => rw [extractLoop_empty oracle a f hh]
      | parseError =>
          have hr : retryable (oracle a) = true := by rw [hh]; rfl
          cases f with
          | zero => rw [extractLoop_err_last oracle a hr]
          | succ r =>
              rw [extractLoop_err_retry oracle a r hr]
              show 1 ≤ (extractLoop oracle (a + 1) (r + 1)).attempts + 1
              omega
      | apiError =>
          have hr : retryable (oracle a) = true := by rw [hh]; rfl
          cases f with
          | zero => rw [extractLoop_err_last oracle a hr]
          | succ r =>
              rw [extractLoop_err_retry oracle a r hr]
              show 1 ≤ (extractLoop oracle (a + 1) (r + 1)).attempts + 1
              omega

/-- Cons step of the backoff series: prepending the delay of the
current attempt to the series of the next attempt gives the series of
the current attempt. -/
theorem backoff_series_cons (a n : Nat) :
    2 ^ a :: (List.range n).map (fun i => 2 ^ (a + 1 + i))
      = (List.range (n + 1)).map (fun i => 2 ^ (a + i)) := by
  rw [List.range_succ_eq_map]
  simp only [List.map_cons, List.map_map, Nat.add_zero]
  congr 1
  apply List.map_congr_left
  intro i _
  have hexp : a + 1 + i = a + (i + 1) := by omega
  simp [Function.comp, hexp]

/-- The delays slept by the loop are exactly the doubling backoff
series for the non-final attempts. -/
theorem extractLoop_sleeps (oracle : Nat → LLMOutcome α) :
    ∀ (fuel attempt : Nat),
      (extractLoop oracle attempt fuel).sleeps
        = (List.range ((extractLoop oracle attempt fuel).attempts - 1)).map
            (fun i => 2 ^ (attempt + i)) := by
  intro fuel
  induction fuel with
  | zero => intro a; simp [extractLoop_zero_fuel]
  | succ f ih =>
      intro a
      cases hh : oracle a with
      | ok d => rw [extractLoop_ok oracle a f d hh]; simp
      | empty => rw [extractLoop_empty oracle a f hh]; simp
      | parseError =>
          have hr : retryable (oracle a) = true := by rw [hh]; rfl
          cases f with
          | zero => rw [extractLoop_err_last oracle a hr]; simp
          | succ r =>
              rw [extractLoop_err_retry oracle a r hr]
              have hpos := extractLoop_attempts_pos oracle (r + 1) (a + 1)
                (by omega)
              obtain ⟨n, hn⟩ : ∃ n,
                  (extractLoop oracle (a + 1) (r + 1)).attempts = n + 1 :=
                ⟨(extractLoop oracle (a + 1) (r + 1)).attempts - 1, by omega⟩
              show 2 ^ a :: (extractLoop oracle (a + 1) (r + 1)).sleeps
                = (List.range ((extractLoop oracle (a + 1) (r + 1)).attempts + 1 - 1)).map
                    (fun i => 2 ^ (a + i))
              rw [ih (a + 1), hn]
              simp only [Nat.add_sub_cancel, Nat.succ_sub_one]
              exact backoff_series_cons a n
      | apiError =>
          have hr : retryable (oracle a) = true := by rw [hh]; rfl
          cases f with
          | zero => rw [extractLoop_err_last oracle a hr]; simp
          | succ r =>
              rw [extractLoop_err_retry oracle a r hr]
              have hpos := extractLoop_attempts_pos oracle (r + 1) (a + 1)
                (by omega)
              obtain ⟨n, hn⟩ : ∃ n,
                  (extractLoop oracle (a + 1) (r + 1)).attempts = n + 1 :=
                ⟨(extractLoop oracle (a + 1) (r + 1)).attempts - 1, by omega⟩
              show 2 ^ a :: (extractLoop oracle (a + 1) (r + 1)).sleeps
                = (List.range ((extractLoop oracle (a + 1) (r + 1)).attempts + 1 - 1)).map
                    (fun i => 2 ^ (a + i))
              rw [ih (a + 1), hn]
              simp only [Nat.add_sub_cancel, Nat.succ_sub_one]
              exact backoff_series_cons a n

/-- Every non-final attempt of the loop ended in a retryable error. -/
theorem extractLoop_retries_only_on_errors (oracle : Nat → LLMOutcome α) :
    ∀ (fuel attempt k : Nat),
      k + 1 < (extractLoop oracle attempt fuel).attempts →
      retryable (oracle (attempt + k)) = true := by
  intro fuel
  induction fuel with
  | zero => intro a k h; simp [extractLoop_zero_fuel] at h
  | succ f ih =>
      intro a k h
      cases hh : oracle a with
      | ok d => rw [extractLoop_ok oracle a f d hh] at h; simp at h
      | empty => rw [extractLoop_empty oracle a f hh] at h; simp at h
      | parseError =>
          have hr : retryable (oracle a) = true := by rw [hh]; rfl
          cases f with
          | zero => rw [extractLoop_err_last oracle a hr] at h; simp at h
          | succ r =>
              rw [extractLoop_err_retry oracle a r hr] at h
              replace h : k + 1 < (extractLoop oracle (a + 1) (r + 1)).attempts + 1 := h
              cases k with
              | zero => simpa using hr
              | succ k₂ =>
                  have h3 := ih (a + 1) k₂ (by omega)
                  have harr : a + 1 + k₂ = a + (k₂ + 1) := by omega
                  rwa [harr] at h3
      | apiError =>
          have hr : retryable (oracle a) = true := by rw [hh]; rfl
          cases f with
          | zero => rw [extractLoop_err_last oracle a hr] at h; simp at h
          | succ r =>
              rw [extractLoop_err_retry oracle a r hr] at h
              replace h : k + 1 < (extractLoop oracle (a + 1) (r + 1)).attempts + 1 := h
              cases k with
              | zero => simpa using hr
              | succ k₂ =>
                  have h3 := ih (a + 1) k₂ (by omega)
                  have harr : a + 1 + k₂ = a + (k₂ + 1) := by omega
                  rwa [harr] at h3

/-- When every attempt in range errors, the loop exhausts the fuel and
returns no result. -/
theorem extractLoop_exhaust (oracle : Nat → LLMOutcome α) :
    ∀ (fuel attempt : Nat),
      (∀ k, k < fuel → retryable (oracle (attempt + k)) = true) →
      (extractLoop oracle attempt fuel).result = none ∧
      (extractLoop oracle attempt fuel).attempts = fuel := by
  intro fuel
  induction fuel with
  | zero => intro a _; simp [extractLoop_zero_fuel]
  | succ f ih =>
      intro a h
      have h0 : retryable (oracle a) = true := by
        simpa using h 0 (by omega)
      cases f with
      | zero => rw [extractLoop_err_last oracle a h0]; exact ⟨rfl, rfl⟩
      | succ r =>
          have hrest := ih (a + 1) (fun k hk => by
            have h4 := h (k + 1) (by omega)
            have harr : a + (k + 1) = a + 1 + k := by omega
            rwa [harr] at h4)
          rw [extractLoop_err_retry oracle a r h0]
          exact ⟨hrest.1, by rw [hrest.2]⟩

/-- C8: one text-extraction call makes at most `max_retries + 1 = 3`
attempts, sleeps the doubling backoff series `2 ^ i` between attempts,
continues past an attempt only when it raised an extraction error or a
structured-output parse error, and returns `None` to the caller after
all attempts error. -/
theorem text_extraction_retry_policy {α : Type} (oracle : Nat → LLMOutcome α)
    (markdown : Option String) :
    (extract_with_llm oracle markdown).attempts ≤ max_retries + 1 ∧
    (extract_with_llm oracle markdown).sleeps
      = (List.range ((extract_with_llm oracle markdown).attempts - 1)).map
          (fun i => 2 ^ i) ∧
    (∀ k, k + 1 < (extract_with_llm oracle markdown).attempts →
      retryable (oracle k) = true) ∧
    ((∀ k, k < max_retries + 1 → retryable (oracle k) = true) →
      (extract_with_llm oracle markdown).result = none) := by
  unfold extract_with_llm
  cases markdown with
  | none => simp
  | some m =>
      by_cases h1 : m = ""
      · simp [h1]
      · by_cases h2 : m.trim.length < 50
        · simp [h1, h2]
        · simp only [h1, h2, if_false, if_neg]
          refine ⟨extractLoop_attempts_le oracle (max_retries + 1) 0, ?_, ?_, ?_⟩
          · have := extractLoop_sleeps oracle (max_retries + 1) 0
            simpa using this
          · intro k hk
            have := extractLoop_retries_only_on_errors oracle (max_retries + 1) 0 k
              (by simpa using hk)
            simpa using this
          · intro hall
            exact (extractLoop_exhaust oracle (max_retries + 1) 0
              (fun k hk => by simpa using hall k hk)).1

/-- Witness for C8: with every attempt failing to parse, the call
returns `None`, runs exactly 3 attempts and sleeps 1 then 2 seconds. -/
theorem text_extraction_retry_policy_holds :
    (extract_with_llm oracleErr (some mdLong)).result = none ∧
    (extract_with_llm oracleErr (some mdLong)).attempts ≤ 3 ∧
    (extract_with_llm oracleErr (some mdLong)).sleeps
      = (List.range ((extract_with_llm oracleErr (some mdLong)).attempts - 1)).map
          (fun i => 2 ^ i) := by
  have h := text_extraction_retry_policy oracleErr (some mdLong)
  exact ⟨h.2.2.2 (fun k _ => rfl), h.1, h.2.1⟩

/-! ## Theorems about the pricing cascade -/

/-- With a text-extraction oracle that never yields a payload, every
text tier yields none. -/
theorem runTextPricing_none (env : Env)
    (he : ∀ m, env.extract_pricing m = none) (md : Option String) :
    runTextPricing env md = none := by
  cases md with
  | none => rfl
  | some m => by_cases hm : m = "" <;> simp [runTextPricing, hm, he]

/-- With a vision oracle that never yields a payload, the image loop
yields none. -/
theorem extract_images_none (env : Env)
    (hv : ∀ u, env.vision_extract u = none) :
    ∀ l, extract_pricing_from_images env l = none := by
  intro l
  induction l with
  | nil => rfl
  | cons u rest ih => simp [extract_pricing_from_images, hv, ih]

/-- When both extraction oracles never yield a payload, the cascade is
still empty after the vision tier. -/
theorem afterVision_none (env : Env) (seed : Seed)
    (he : ∀ m, env.extract_pricing m = none)
    (hv : ∀ u, env.vision_extract u = none) :
    pricingAfterVision env seed = none := by
  have h1 : pricingTier1 env seed = none := runTextPricing_none env he _
  unfold pricingAfterVision
  rw [h1]
  simp only [hasPricesOpt, Bool.false_eq_true, if_false]
  cases hh : pricingHtml env seed with
  | none => rfl
  | some b =>
      by_cases hb : b = ""
      · simp [hb]
      · by_cases hi : pricingImgUrls env seed = [] <;>
          simp [hb, hi, extract_images_none env hv]

/-- When both extraction oracles never yield a payload, the whole
cascade ends with no payload. -/
theorem cascade_none (env : Env) (seed : Seed)
    (he : ∀ m, env.extract_pricing m = none)
    (hv : ∀ u, env.vision_extract u = none) :
    pricingAfterHomepage env seed = none := by
  have h2 := afterVision_none env seed he hv
  unfold pricingAfterHomepage
  rw [h2]
  by_cases hf : homepageFallbackRan env seed <;>
    simp [hf, runTextPricing_none env he]

/-- C4: the pricing cascade always hands a payload to the merge — when
every tier produced nothing, the explicit attempted-nothing-found
marker with all three price fields null is used instead of leaving the
category untouched — and the pricing merge stamps last_price_check to
the run date for any payload, so after the merge it is non-null. -/
theorem pricing_attempt_always_recorded (env : Env) (seed : Seed)
    (today : String) (s : School) :
    (updatePricingRow today s (scrapePricingResult env seed)).last_price_check
      = some today ∧
    ((∀ m, env.extract_pricing m = none) → (∀ u, env.vision_extract u = none) →
      scrapePricingResult env seed = nothingFoundMarker) ∧
    nothingFoundMarker.monthly_pass_pln = none ∧
    nothingFoundMarker.trial_price_pln = none ∧
    nothingFoundMarker.single_class_pln = none := by
  refine ⟨rfl, ?_, rfl, rfl, rfl⟩
  intro he hv
  unfold scrapePricingResult
  rw [cascade_none env seed he hv]

/-- Witness for C4: with nothing found anywhere, the concrete run emits
the marker and the merge records the attempt date. -/
theorem pricing_attempt_always_recorded_holds :
    scrapePricingResult envAllNone seedX = nothingFoundMarker ∧
    (updatePricingRow "2026-10-12" schoolX
        (scrapePricingResult envAllNone seedX)).last_price_check
      = some "2026-10-12" := by
  have h := pricing_attempt_always_recorded envAllNone seedX "2026-10-12" schoolX
  exact ⟨h.2.1 (fun m => rfl) (fun u => rfl), h.1⟩

/-- C7 counterexample: with the pricing URL hint equal to the website
and no prices found, the homepage fallback tier still runs, so the
homepage is fetched a second time for pricing even though the pricing
URL is not separate from the homepage. -/
theorem homepage_fallback_runs_when_urls_equal :
    seedSame.pricing_url = seedSame.website ∧
    homepageFallbackRan envAllNone seedSame = true := by
  refine ⟨rfl, ?_⟩
  unfold homepageFallbackRan
  rw [afterVision_none envAllNone seedSame (fun m => rfl) (fun u => rfl)]
  rfl

/-- Truthiness of an optional string unfolded to an existential. -/
theorem optStrTruthy_iff (x : Option String) :
    optStrTruthy x = true ↔ ∃ s, x = some s ∧ s ≠ "" := by
  cases x <;> simp [optStrTruthy]

/-- C7 amended: the homepage fallback tier runs exactly when the
earlier tiers left no populated price field and the seed has both a
non-empty pricing URL hint and a non-empty website; the two URLs are
never compared, and an absent or empty hint disables the tier. -/
theorem homepage_fallback_condition (env : Env) (seed : Seed) :
    homepageFallbackRan env seed = true ↔
      hasPricesOpt (pricingAfterVision env seed) = false ∧
      (∃ pu, seed.pricing_url = some pu ∧ pu ≠ "") ∧
      (∃ w, seed.website = some w ∧ w ≠ "") := by
  unfold homepageFallbackRan
  rw [Bool.and_eq_true, Bool.and_eq_true]
  rw [show ((!hasPricesOpt (pricingAfterVision env seed)) = true)
        = (hasPricesOpt (pricingAfterVision env seed) = false) by
      cases hasPricesOpt (pricingAfterVision env seed) <;> simp]
  rw [optStrTruthy_iff, optStrTruthy_iff, and_assoc]

/-- C10: a pricing payload whose populated price fields are all the
numeric value 0 fails the has-prices gate: it counts as finding
nothing, a vision payload carrying only such values is discarded by the
image loop, the vision tier is still entered after such a tier 1
payload whenever the page body is truthy, and the homepage tier still
runs after such a post-vision payload whenever both URL hints are
present. -/
theorem zero_prices_treated_as_not_found (p : PricingData)
    (hm : p.monthly_pass_pln = none ∨ p.monthly_pass_pln = some 0)
    (hs : p.single_class_pln = none ∨ p.single_class_pln = some 0)
    (ht : p.trial_price_pln = none ∨ p.trial_price_pln = some 0) :
    hasPricesData p = false ∧
    (∀ env u rest, env.vision_extract u = some p →
      extract_pricing_from_images env (u :: rest)
        = extract_pricing_from_images env rest) ∧
    (∀ env seed, pricingTier1 env seed = some p →
      visionTierRan env seed = optStrTruthy (pricingHtml env seed)) ∧
    (∀ env seed, pricingAfterVision env seed = some p →
      homepageFallbackRan env seed
        = (optStrTruthy seed.pricing_url && optStrTruthy seed.website)) := by
  have hgate : hasPricesData p = false := by
    rcases hm with h1 | h1 <;> rcases hs with h2 | h2 <;> rcases ht with h3 | h3 <;>
      simp [hasPricesData, optRatTruthy, h1, h2, h3]
  refine ⟨hgate, ?_, ?_, ?_⟩
  · intro env u rest hv
    simp [extract_pricing_from_images, hv, hgate]
  · intro env seed h1
    unfold visionTierRan
    rw [h1]
    simp [hasPricesOpt, hgate]
  · intro env seed h1
    unfold homepageFallbackRan
    rw [h1]
    simp [hasPricesOpt, hgate]

/-- Witness for C10: the zero-only payload fails the gate and a vision
result carrying it is discarded. -/
theorem zero_prices_treated_as_not_found_holds :
    hasPricesData pZero = false ∧
    extract_pricing_from_images envVisionZero ["http://joga.pl/cennik.jpg"] = none := by
  have h := zero_prices_treated_as_not_found pZero (Or.inl rfl) (Or.inl rfl)
    (Or.inr rfl)
  refine ⟨h.1, ?_⟩
  have h2 := h.2.1 envVisionZero "http://joga.pl/cennik.jpg" [] rfl
  rw [h2]
  rfl

/-! ## Theorems about candidate pricing images -/

/-- The resolve-and-deduplicate loop keeps resolved URLs in their
first-occurrence order: its output is a sublist of the resolved list. -/
theorem resolveDedup_sublist (page : String) :
    ∀ (l seen : List String),
      (resolveDedup page seen l).Sublist (l.map (urljoin page)) := by
  intro l
  induction l with
  | nil => intro seen; simp [resolveDedup]
  | cons a rest ih =>
      intro seen
      simp only [resolveDedup, List.map_cons]
      by_cases h : urljoin page a ∈ seen
      · rw [if_pos h]
        exact (ih seen).cons _
      · rw [if_neg h]
        exact (ih _).cons₂ _

/-- Membership in the resolve-and-deduplicate loop output: exactly the
resolved URLs not already seen. -/
theorem resolveDedup_mem (page : String) :
    ∀ (l seen : List String) (u : String),
      u ∈ resolveDedup page seen l ↔ u ∈ l.map (urljoin page) ∧ u ∉ seen := by
  intro l
  induction l with
  | nil => intro seen u; simp [resolveDedup]
  | cons a rest ih =>
      intro seen u
      simp only [resolveDedup, List.map_cons, List.mem_cons]
      by_cases h : urljoin page a ∈ seen
      · rw [if_pos h, ih]
        constructor
        · rintro ⟨hm, hs⟩
          exact ⟨Or.inr hm, hs⟩
        · rintro ⟨heq | hm, hs⟩
          · exact absurd (heq ▸ h) hs
          · exact ⟨hm, hs⟩
      · rw [if_neg h]
        simp only [List.mem_cons, ih]
        constructor
        · rintro (heq | ⟨hm, hs⟩)
          · exact ⟨Or.inl heq, heq ▸ h⟩
          · constructor
            · exact Or.inr hm
            · intro hu
              exact hs (Or.inr hu)
        · rintro ⟨heq | hm, hs⟩
          · exact Or.inl heq
          · by_cases he : u = urljoin page a
            · exact Or.inl he
            · refine Or.inr ⟨hm, ?_⟩
              rintro (h1 | h1)
              · exact he h1
              · exact hs h1

/-- The resolve-and-deduplicate loop output holds no duplicates. -/
theorem resolveDedup_nodup (page : String) :
    ∀ (l seen : List String), (resolveDedup page seen l).Nodup := by
  intro l
  induction l with
  | nil => intro seen; simp [resolveDedup]
  | cons a rest ih =>
      intro seen
      simp only [resolveDedup]
      by_cases h : urljoin page a ∈ seen
      · rw [if_pos h]
        exact ih seen
      · rw [if_neg h]
        refine List.nodup_cons.mpr ⟨?_, ih _⟩
        intro hmem
        have hm := (resolveDedup_mem page rest (urljoin page a :: seen)
          (urljoin page a)).mp hmem
        exact hm.2 (List.mem_cons_self _ _)

/-- C9 amended: candidate-image extraction resolves the collected
references against the page URL, deduplicates them preserving
first-occurrence order, keeps exactly those whose absolute URL contains
a pricing keyword (case-insensitive), and returns at most 3; whenever
at most 3 candidates match, exactly the matching ones are returned in
page order. -/
theorem image_candidates_filter_cap (imgSrcs bgUrls : List String)
    (page_url : String) :
    (extract_image_urls imgSrcs bgUrls page_url).length ≤ 3 ∧
    extract_image_urls imgSrcs bgUrls page_url
      = ((resolveDedup page_url [] (imgSrcs ++ bgUrls)).filter
          containsKeyword).take 3 ∧
    (resolveDedup page_url [] (imgSrcs ++ bgUrls)).Nodup ∧
    (resolveDedup page_url [] (imgSrcs ++ bgUrls)).Sublist
      ((imgSrcs ++ bgUrls).map (urljoin page_url)) ∧
    (∀ u, u ∈ resolveDedup page_url [] (imgSrcs ++ bgUrls) ↔
      u ∈ (imgSrcs ++ bgUrls).map (urljoin page_url)) ∧
    (∀ u, u ∈ extract_image_urls imgSrcs bgUrls page_url →
      containsKeyword u = true) ∧
    (((resolveDedup page_url [] (imgSrcs ++ bgUrls)).filter
        containsKeyword).length ≤ 3 →
      extract_image_urls imgSrcs bgUrls page_url
        = (resolveDedup page_url [] (imgSrcs ++ bgUrls)).filter
            containsKeyword) := by
  refine ⟨?_, rfl, resolveDedup_nodup page_url _ _,
    resolveDedup_sublist page_url _ _, ?_, ?_, ?_⟩
  · exact List.length_take_le 3
      ((resolveDedup page_url [] (imgSrcs ++ bgUrls)).filter containsKeyword)
  · intro u
    rw [resolveDedup_mem]
    simp
  · intro u hu
    have h1 : u ∈ (resolveDedup page_url [] (imgSrcs ++ bgUrls)).filter
        containsKeyword :=
      List.take_subset 3 _ hu
    exact List.of_mem_filter h1
  · intro hlen
    exact List.take_of_length_le hlen

/-- Witness for C9 amended: of the ten collected references exactly the
two keyword-bearing ones are returned, in page order, within the cap. -/
theorem image_candidates_filter_cap_holds :
    extract_image_urls imgs10 [] "http://joga.example.pl/"
      = ["http://joga.example.pl/cennik-2025.jpg",
         "http://joga.example.pl/karnety/lista.png"] ∧
    (extract_image_urls imgs10 [] "http://joga.example.pl/").length ≤ 3 := by
  have h := image_candidates_filter_cap imgs10 [] "http://joga.example.pl/"
  refine ⟨?_, h.1⟩
  have h2 := h.2.2.2.2.2.2 (by decide)
  exact h2.trans (by decide)

/-- C9 counterexample: a reference with no pricing keyword anywhere in
its path is still selected when the keyword occurs in the host, because
the source searches the whole resolved URL, not its path. -/
theorem keyword_in_host_still_selected :
    extract_image_urls ["zdjecie.jpg"] [] "http://cennik.example.pl/"
      = ["http://cennik.example.pl/zdjecie.jpg"] ∧
    containsKeyword (urlPath "http://cennik.example.pl/zdjecie.jpg") = false := by
  constructor
  · decide
  · decide

end Scraper
